import Mathlib

/-!
Verification of the gesture pipeline and camera behaviors of the
three-mouse-control repository (src/MouseControl.js), as a shallow
embedding. The pointer pipeline, reset and target bookkeeping are
modelled over exact rationals in the namespace MouseControl; the orbit,
pan and zoom geometry, which needs square roots, is modelled over the
reals in the namespace MouseControlR.
-/

namespace MouseControl

/-- THREE.Vector2 with exact rational components. -/
structure Vector2 where
  x : ℚ
  y : ℚ
  deriving DecidableEq

/-- THREE.Vector3 with exact rational components. -/
structure Vector3 where
  x : ℚ
  y : ℚ
  z : ℚ
  deriving DecidableEq

/-- Change-detection epsilon, THREE.MouseControl.EPS = .000001. -/
def EPS : ℚ := 1 / 1000000

/-- THREE.Vector3.distanceToSquared. -/
def distanceToSquared (a b : Vector3) : ℚ :=
  (a.x - b.x) * (a.x - b.x) + (a.y - b.y) * (a.y - b.y)
    + (a.z - b.z) * (a.z - b.z)

/-- Scene-graph object handle: reference identity (the id field) plus the
mutable position and up fields that the controller writes. -/
structure Object3D where
  id : Nat
  position : Vector3
  up : Vector3
  deriving DecidableEq

/-- ObjectInfo record of the controller: the object, the registration
snapshots pos and up, the look-at target, and last.pos, the position at
which the last moveChange event was dispatched. -/
structure ObjectInfo where
  obj : Object3D
  pos : Vector3
  up : Vector3
  target : Vector3
  lastPos : Vector3
  deriving DecidableEq

/-- Body of reset() for a single ObjectInfo: the object position and up are
copied from the snapshots, then checkChange runs, dispatching moveChange
exactly when last.pos is farther than EPS (squared) from the new position,
which is the snapshot, and finally last.pos is copied from the snapshot.
Returns the updated record and whether a moveChange event was dispatched. -/
def resetInfo (info : ObjectInfo) : ObjectInfo × Bool :=
  let obj' := { info.obj with position := info.pos, up := info.up }
  let emit := decide (EPS < distanceToSquared info.lastPos obj'.position)
  ({ info with obj := obj', lastPos := info.pos }, emit)

/-- MouseControl.reset: the per-object reset body applied to every
registered object. -/
def reset (infos : List ObjectInfo) : List (ObjectInfo × Bool) :=
  infos.map resetInfo

/-- Bounding rectangle of the input surface. -/
structure Rect where
  left : ℚ
  top : ℚ
  width : ℚ
  height : ℚ
  deriving DecidableEq

/-- Pointer state of the pipeline (the this._mouse record). -/
structure MouseState where
  capture : Bool
  curr : Vector2
  prev : Vector2
  deriving DecidableEq

/-- MouseControl._offsetCalc: normalize page coordinates against the rect. -/
def offsetCalc (r : Rect) (x y : ℚ) : Vector2 :=
  ⟨(x - r.left) / r.width, (y - r.top) / r.height⟩

/-- MouseControl._saveMove: when the argument pair passes the JS truthiness
test (opt_x or opt_y nonzero), curr is recomputed from the normalized
position; otherwise, and also when called with no arguments, prev is
copied from curr. -/
def saveMove (r : Rect) (m : MouseState) : Option (ℚ × ℚ) → MouseState
  | some (x, y) =>
      if x ≠ 0 ∨ y ≠ 0 then { m with curr := offsetCalc r x y }
      else { m with prev := m.curr }
  | none => { m with prev := m.curr }

/-- MouseControl._startMove: save the press position, then copy prev from
curr. -/
def startMove (r : Rect) (m : MouseState) (x y : ℚ) : MouseState :=
  saveMove r (saveMove r m (some (x, y))) none

/-- Event names dispatched by the pipeline. -/
inductive EventEnum where
  | moveStart
  | moveChange
  | moveStop
  deriving DecidableEq

/-- Payload of a moveStart or moveStop event: the curr and prev pair. -/
structure MoveEvent where
  type : EventEnum
  curr : Vector2
  prev : Vector2
  deriving DecidableEq

/-- MouseControl.mouseDown_: when the event button matches the bound button,
capture is set, the press position is run through startMove and a moveStart
event carrying the resulting curr and prev pair is dispatched. -/
def mouseDown_ (button ebutton : Nat) (r : Rect) (m : MouseState) (x y : ℚ) :
    MouseState × Option MoveEvent :=
  if ebutton ≠ button then (m, none)
  else
    let m' := startMove r { m with capture := true } x y
    (m', some ⟨EventEnum.moveStart, m'.curr, m'.prev⟩)

/-- ZoomControl._touchEnd: stopMove, which dispatches moveStop, runs exactly
when more than one contact remains in e.touches after the touch end.
Returns whether moveStop is dispatched, as a function of the remaining
contact count. -/
def zoomTouchEnd (touches : Nat) : Bool :=
  decide (1 < touches)

/-- TouchControl.notImplemented_: the raised Error, as the error value of a
hook outcome. A hook outcome is either a raised error or a normally
returned optional dispatched event. -/
def notImplemented_ : Except String (Option EventEnum) :=
  Except.error "Not implemented"

/-- TouchControl._touchStart base implementation: dispatches moveStart. -/
def touchStartBase : Except String (Option EventEnum) :=
  Except.ok (some EventEnum.moveStart)

/-- TouchControl._touchMove base implementation: raises Not implemented. -/
def touchMoveBase : Except String (Option EventEnum) :=
  notImplemented_

/-- TouchControl._touchEnd base implementation: raises Not implemented. -/
def touchEndBase : Except String (Option EventEnum) :=
  notImplemented_

/-- Whether a hook outcome is a raised error. -/
def failsLoudly : Except String (Option EventEnum) → Bool
  | Except.error _ => true
  | Except.ok _ => false

/-- MouseControl.getObjectInfo_: the first registered record whose object is
the given one (JS reference identity, modelled by the id field). -/
def getObjectInfo_ : List ObjectInfo → Nat → Option ObjectInfo
  | [], _ => none
  | info :: rest, objId =>
      if info.obj.id = objId then some info else getObjectInfo_ rest objId

/-- MouseControl.getTarget: a clone of the stored target of the object, when
the object is registered; nothing otherwise. -/
def getTarget (infos : List ObjectInfo) (objId : Nat) : Option Vector3 :=
  (getObjectInfo_ infos objId).map (fun info => info.target)

/-- Replace the target of the first record registered for the object. -/
def replaceTarget : List ObjectInfo → Nat → Vector3 → List ObjectInfo
  | [], _, _ => []
  | info :: rest, objId, t =>
      if info.obj.id = objId then { info with target := t } :: rest
      else info :: replaceTarget rest objId t

/-- MouseControl.setTarget: when the object is registered, the stored target
becomes a clone of the argument and the previous target is returned;
otherwise nothing is returned and the state is unchanged. -/
def setTarget (infos : List ObjectInfo) (objId : Nat) (t : Vector3) :
    Option Vector3 × List ObjectInfo :=
  match getObjectInfo_ infos objId with
  | none => (none, infos)
  | some info => (some info.target, replaceTarget infos objId t)

theorem getObjectInfo_replaceTarget (infos : List ObjectInfo) (objId : Nat)
    (t : Vector3) (info : ObjectInfo)
    (h : getObjectInfo_ infos objId = some info) :
    getObjectInfo_ (replaceTarget infos objId t) objId
      = some { info with target := t } := by
  induction infos with
  | nil => simp [getObjectInfo_] at h
  | cons head rest ih =>
      by_cases hid : head.obj.id = objId
      · rw [getObjectInfo_, if_pos hid] at h
        injection h with h
        subst h
        rw [replaceTarget, if_pos hid, getObjectInfo_, if_pos hid]
      · rw [getObjectInfo_, if_neg hid] at h
        rw [replaceTarget, if_neg hid, getObjectInfo_, if_neg hid]
        exact ih h

/-- Claim C1 (amended): after reset every registered object has position, up
and last.pos equal to the registration snapshots, and a moveChange event is
dispatched for the object exactly when last.pos, the position at which the
last moveChange was dispatched, differed from the snapshot position by more
than EPS in squared distance. -/
theorem claim_C1 (infos : List ObjectInfo) (info : ObjectInfo) :
    reset infos = infos.map resetInfo ∧
    (resetInfo info).1.obj.position = info.pos ∧
    (resetInfo info).1.obj.up = info.up ∧
    (resetInfo info).1.lastPos = info.pos ∧
    ((resetInfo info).2 = true ↔
      EPS < distanceToSquared info.lastPos info.pos) := by
  refine ⟨rfl, rfl, rfl, rfl, ?_⟩
  simp [resetInfo]

/-- Concrete pre-reset state for C1: the position has moved farther than EPS
from the snapshot while last.pos stayed within EPS of the snapshot, which is
reachable because sub-epsilon motion never updates last.pos. -/
def infoC1 : ObjectInfo :=
  { obj := { id := 0, position := ⟨1/500, 0, 0⟩, up := ⟨0, 1, 0⟩ }
  , pos := ⟨0, 0, 0⟩
  , up := ⟨0, 1, 0⟩
  , target := ⟨0, 0, 0⟩
  , lastPos := ⟨1/1000, 0, 0⟩ }

/-- Claim C1 (counterexample): at infoC1 the pre-reset position differs from
the snapshot by more than EPS, yet reset dispatches no moveChange event,
because checkChange compares last.pos, not the pre-reset position, against
the restored position. -/
theorem claim_C1_counterexample :
    EPS < distanceToSquared infoC1.obj.position infoC1.pos ∧
    (resetInfo infoC1).2 = false := by
  constructor
  · norm_num [EPS, distanceToSquared, infoC1]
  · simp only [resetInfo, infoC1, decide_eq_false_iff_not]
    norm_num [EPS, distanceToSquared]

/-- Rectangle and pointer state exhibiting the press bug of C4. -/
def rectC4 : Rect := ⟨0, 0, 2, 2⟩

/-- Stale pointer state before the press of C4. -/
def mouseC4 : MouseState := ⟨false, ⟨5, 5⟩, ⟨7, 7⟩⟩

/-- Claim C4 (code bug evaluation): a press at page coordinates (0,0) with
the matching button falls into the no-argument branch of saveMove, because
the JS truthiness test on opt_x and opt_y is false, so curr keeps its stale
value instead of receiving the normalized press position, and the dispatched
moveStart pair carries that stale value. -/
theorem claim_C4_eval :
    offsetCalc rectC4 0 0 = ⟨0, 0⟩ ∧
    (mouseDown_ 0 0 rectC4 mouseC4 0 0).1.curr = ⟨5, 5⟩ ∧
    (mouseDown_ 0 0 rectC4 mouseC4 0 0).2
      = some ⟨EventEnum.moveStart, ⟨5, 5⟩, ⟨5, 5⟩⟩ ∧
    (⟨5, 5⟩ : Vector2) ≠ offsetCalc rectC4 0 0 := by
  refine ⟨?_, rfl, rfl, ?_⟩
  · simp [offsetCalc, rectC4]
  · norm_num [offsetCalc, rectC4, Vector2.mk.injEq]

/-- Claim C6 (code bug evaluation): the zoom touch-end handler dispatches
moveStop exactly when more than one contact remains, so a touch end that
leaves at most one active contact does not stop the gesture. -/
theorem claim_C6_eval :
    zoomTouchEnd 0 = false ∧ zoomTouchEnd 1 = false ∧
    zoomTouchEnd 2 = true := by decide

/-- Claim C8 (counterexample): the base touch-start hook does not fail
loudly; it returns normally, dispatching a moveStart event. -/
theorem claim_C8_counterexample :
    failsLoudly touchStartBase = false ∧
    touchStartBase = Except.ok (some EventEnum.moveStart) := ⟨rfl, rfl⟩

/-- Claim C8 (amended): the touch-move and touch-end hooks that a concrete
behavior does not override fail loudly with a Not implemented error, while
the base touch-start hook instead dispatches a moveStart event. -/
theorem claim_C8 :
    failsLoudly touchMoveBase = true ∧ failsLoudly touchEndBase = true ∧
    touchMoveBase = Except.error "Not implemented" ∧
    touchEndBase = Except.error "Not implemented" ∧
    touchStartBase = Except.ok (some EventEnum.moveStart) :=
  ⟨rfl, rfl, rfl, rfl, rfl⟩

/-- Claim C9 (confirmed): getTarget and setTarget on an unregistered object
return none and setTarget leaves the state unchanged; on a registered object
getTarget returns the current target, and setTarget stores the new target
and returns the previous one. -/
theorem claim_C9 (infos : List ObjectInfo) (objId : Nat) (t : Vector3) :
    (getObjectInfo_ infos objId = none →
      getTarget infos objId = none ∧
      setTarget infos objId t = (none, infos)) ∧
    (∀ info, getObjectInfo_ infos objId = some info →
      getTarget infos objId = some info.target ∧
      (setTarget infos objId t).1 = some info.target ∧
      getTarget (setTarget infos objId t).2 objId = some t) := by
  constructor
  · intro h
    simp [getTarget, setTarget, h]
  · intro info h
    refine ⟨by simp [getTarget, h], by simp [setTarget, h], ?_⟩
    simp [setTarget, h, getTarget, getObjectInfo_replaceTarget _ _ t _ h]

/-- Registered record used by the C9 witness. -/
def infoC9 : ObjectInfo :=
  { obj := { id := 1, position := ⟨0, 0, 5⟩, up := ⟨0, 1, 0⟩ }
  , pos := ⟨0, 0, 5⟩
  , up := ⟨0, 1, 0⟩
  , target := ⟨0, 0, 0⟩
  , lastPos := ⟨0, 0, 5⟩ }

/-- Witness for C9 at a concrete one-object controller: object 2 is not
registered, object 1 is. -/
theorem claim_C9_witness :
    getTarget [infoC9] 2 = none ∧
    setTarget [infoC9] 2 ⟨1, 2, 3⟩ = (none, [infoC9]) ∧
    getTarget [infoC9] 1 = some ⟨0, 0, 0⟩ ∧
    (setTarget [infoC9] 1 ⟨1, 2, 3⟩).1 = some ⟨0, 0, 0⟩ ∧
    getTarget (setTarget [infoC9] 1 ⟨1, 2, 3⟩).2 1 = some ⟨1, 2, 3⟩ := by
  have h2 := (claim_C9 [infoC9] 2 ⟨1, 2, 3⟩).1 (by decide)
  have h1 := (claim_C9 [infoC9] 1 ⟨1, 2, 3⟩).2 infoC9 (by decide)
  exact ⟨h2.1, h2.2, h1.1, h1.2.1, h1.2.2⟩

/-- Heap of Vector3 cells; an address is an index into the list. Models JS
references to THREE.Vector3 instances, so that clone (a fresh allocation)
and later in-place mutation are observable, as the aliasing part of C10
requires. -/
abbrev Heap := List Vector3

/-- Value stored at an address. -/
def hread (h : Heap) (a : Nat) : Vector3 :=
  h.getD a ⟨0, 0, 0⟩

/-- In-place mutation of the vector stored at an address. -/
def hwrite (h : Heap) (a : Nat) (v : Vector3) : Heap :=
  h.set a v

/-- THREE.Vector3.clone: allocate a fresh cell holding a copy of the value
at the address; the fresh address is the old heap length. -/
def hclone (h : Heap) (a : Nat) : Heap × Nat :=
  (h ++ [hread h a], h.length)

/-- ObjectInfo trimmed to object identity and a target held by reference. -/
structure ObjectInfoH where
  obj : Nat
  target : Nat
  deriving DecidableEq

/-- MouseControl.getObjectInfo_ over reference-holding records. -/
def getObjectInfoH : List ObjectInfoH → Nat → Option ObjectInfoH
  | [], _ => none
  | info :: rest, objId =>
      if info.obj = objId then some info else getObjectInfoH rest objId

/-- Replace the target reference of the first record for the object. -/
def replaceTargetH : List ObjectInfoH → Nat → Nat → List ObjectInfoH
  | [], _, _ => []
  | info :: rest, objId, a =>
      if info.obj = objId then { info with target := a } :: rest
      else info :: replaceTargetH rest objId a

/-- MouseControl.getTarget over the heap: a fresh clone of the stored
target vector is returned, when the object is registered. -/
def getTargetH (infos : List ObjectInfoH) (h : Heap) (objId : Nat) :
    Option Nat × Heap :=
  match getObjectInfoH infos objId with
  | none => (none, h)
  | some info => ((hclone h info.target).2, (hclone h info.target).1)

/-- MouseControl.setTarget over the heap: when the object is registered, the
record stores a fresh clone of the argument vector and the reference to the
previous target is returned. -/
def setTargetH (infos : List ObjectInfoH) (h : Heap) (objId tAddr : Nat) :
    Option Nat × List ObjectInfoH × Heap :=
  match getObjectInfoH infos objId with
  | none => (none, infos, h)
  | some info =>
      (some info.target, replaceTargetH infos objId (hclone h tAddr).2,
        (hclone h tAddr).1)

theorem hread_append_self (h : Heap) (v : Vector3) :
    hread (h ++ [v]) h.length = v := by
  induction h with
  | nil => rfl
  | cons a t ih =>
      rw [List.cons_append, List.length_cons]
      exact ih

theorem hread_append_lt (h h2 : Heap) (a : Nat) (ha : a < h.length) :
    hread (h ++ h2) a = hread h a := by
  induction h generalizing a with
  | nil => simp at ha
  | cons b t ih =>
      cases a with
      | zero => rfl
      | succ a =>
          have := ih a (by simpa using ha)
          simpa [hread, List.getD] using this

theorem hread_hwrite_ne (h : Heap) (a b : Nat) (v : Vector3) (hab : a ≠ b) :
    hread (hwrite h a v) b = hread h b := by
  induction h generalizing a b with
  | nil => rfl
  | cons c t ih =>
      cases a with
      | zero =>
          cases b with
          | zero => exact absurd rfl hab
          | succ b => rfl
      | succ a =>
          cases b with
          | zero => rfl
          | succ b =>
              have := ih a b (by omega)
              simpa [hread, hwrite, List.getD] using this

theorem getObjectInfoH_replaceTargetH (infos : List ObjectInfoH)
    (objId a : Nat) (info : ObjectInfoH)
    (hfind : getObjectInfoH infos objId = some info) :
    getObjectInfoH (replaceTargetH infos objId a) objId
      = some { info with target := a } := by
  induction infos with
  | nil => simp [getObjectInfoH] at hfind
  | cons head rest ih =>
      by_cases hid : head.obj = objId
      · rw [getObjectInfoH, if_pos hid] at hfind
        injection hfind with hfind
        subst hfind
        rw [replaceTargetH, if_pos hid, getObjectInfoH, if_pos hid]
      · rw [getObjectInfoH, if_neg hid] at hfind
        rw [replaceTargetH, if_neg hid, getObjectInfoH, if_neg hid]
        exact ih hfind

/-- Claim C10 (confirmed): setting the target of a registered object stores
a fresh clone of the argument vector, a following getTarget returns a fresh
clone holding the same value, and later in-place mutation of either the
vector passed to setTarget or the vector returned by getTarget leaves the
value of the stored target unchanged. -/
theorem claim_C10 (infos : List ObjectInfoH) (h : Heap) (objId tAddr : Nat)
    (info : ObjectInfoH) (v w : Vector3)
    (hfind : getObjectInfoH infos objId = some info)
    (ht : tAddr < h.length) :
    (setTargetH infos h objId tAddr).1 = some info.target ∧
    getObjectInfoH (setTargetH infos h objId tAddr).2.1 objId
      = some { info with target := h.length } ∧
    hread (setTargetH infos h objId tAddr).2.2 h.length = hread h tAddr ∧
    (getTargetH (setTargetH infos h objId tAddr).2.1
        (setTargetH infos h objId tAddr).2.2 objId).1
      = some (setTargetH infos h objId tAddr).2.2.length ∧
    hread (getTargetH (setTargetH infos h objId tAddr).2.1
        (setTargetH infos h objId tAddr).2.2 objId).2
        (setTargetH infos h objId tAddr).2.2.length
      = hread h tAddr ∧
    hread (hwrite (setTargetH infos h objId tAddr).2.2 tAddr v) h.length
      = hread h tAddr ∧
    hread (hwrite (getTargetH (setTargetH infos h objId tAddr).2.1
        (setTargetH infos h objId tAddr).2.2 objId).2
        (setTargetH infos h objId tAddr).2.2.length w) h.length
      = hread h tAddr := by
  have hrep := getObjectInfoH_replaceTargetH infos objId h.length info hfind
  simp only [setTargetH, hfind, getTargetH, hclone, hrep]
  refine ⟨trivial, trivial, hread_append_self h _, trivial, ?_, ?_, ?_⟩
  · rw [hread_append_self (h ++ [hread h tAddr])
      (hread (h ++ [hread h tAddr]) h.length)]
    exact hread_append_self h _
  · rw [hread_hwrite_ne (h ++ [hread h tAddr]) tAddr h.length v
      (Nat.ne_of_lt ht)]
    exact hread_append_self h _
  · rw [hread_hwrite_ne
      (h ++ [hread h tAddr] ++ [hread (h ++ [hread h tAddr]) h.length])
      (h ++ [hread h tAddr]).length h.length w (by simp)]
    rw [hread_append_lt (h ++ [hread h tAddr])
      [hread (h ++ [hread h tAddr]) h.length] h.length (by simp)]
    exact hread_append_self h _

/-- Heap used by the C10 witness: the stored target value sits at address 0
and the argument vector at address 1. -/
def heapC10 : Heap := [⟨0, 0, 0⟩, ⟨1, 2, 3⟩]

/-- Witness for C10 at a concrete controller: object 7 has its target at
address 0; the argument vector at address 1 holds the value 1 2 3. After
setTarget the stored clone lives at address 2, reads back as 1 2 3, and
overwriting the argument cell does not change it. -/
theorem claim_C10_witness :
    (setTargetH [⟨7, 0⟩] heapC10 7 1).1 = some 0 ∧
    hread (setTargetH [⟨7, 0⟩] heapC10 7 1).2.2 2 = ⟨1, 2, 3⟩ ∧
    hread (hwrite (setTargetH [⟨7, 0⟩] heapC10 7 1).2.2 1 ⟨9, 9, 9⟩) 2
      = ⟨1, 2, 3⟩ := by
  have H := claim_C10 [⟨7, 0⟩] heapC10 7 1 ⟨7, 0⟩ ⟨9, 9, 9⟩ ⟨8, 8, 8⟩
    (by decide) (by decide)
  exact ⟨H.1, H.2.2.1, H.2.2.2.2.2.1⟩

end MouseControl

namespace MouseControlR

/-- THREE.Vector2 over the reals, for the geometry claims. -/
structure Vec2 where
  x : ℝ
  y : ℝ

/-- THREE.Vector3 over the reals, for the geometry claims. -/
structure Vec3 where
  x : ℝ
  y : ℝ
  z : ℝ

/-- THREE.Vector3.add. -/
noncomputable def add (a b : Vec3) : Vec3 := ⟨a.x + b.x, a.y + b.y, a.z + b.z⟩

/-- THREE.Vector3.sub. -/
noncomputable def sub (a b : Vec3) : Vec3 := ⟨a.x - b.x, a.y - b.y, a.z - b.z⟩

/-- THREE.Vector3.multiplyScalar. -/
noncomputable def smul (c : ℝ) (a : Vec3) : Vec3 := ⟨c * a.x, c * a.y, c * a.z⟩

/-- THREE.Vector3.cross, in the source operand order. -/
noncomputable def cross (a b : Vec3) : Vec3 :=
  ⟨a.y * b.z - a.z * b.y, a.z * b.x - a.x * b.z, a.x * b.y - a.y * b.x⟩

/-- THREE.Vector3.lengthSq. -/
noncomputable def normSq (a : Vec3) : ℝ := a.x * a.x + a.y * a.y + a.z * a.z

/-- THREE.Vector3.length. -/
noncomputable def length (a : Vec3) : ℝ := Real.sqrt (normSq a)

/-- THREE.Vector3.normalize: divide by the length. The model, like the
code, is only used on nonzero vectors; on the zero vector the model
produces zero where the floating-point code produces NaN. -/
noncomputable def normalize (a : Vec3) : Vec3 := smul (1 / length a) a

/-- THREE.Vector3.setLength: normalize, then multiply by the length. -/
noncomputable def setLength (a : Vec3) (l : ℝ) : Vec3 := smul l (normalize a)

/-- THREE.Vector3.distanceToSquared. -/
noncomputable def distanceToSquared (a b : Vec3) : ℝ := normSq (sub a b)

/-- Change-detection epsilon over the reals. -/
noncomputable def EPS : ℝ := 1 / 1000000

/-- THREE.Quaternion as four real components. -/
structure Quat where
  x : ℝ
  y : ℝ
  z : ℝ
  w : ℝ

/-- THREE.Quaternion.setFromAxisAngle (axis assumed normalized). -/
noncomputable def setFromAxisAngle (axis : Vec3) (angle : ℝ) : Quat :=
  ⟨axis.x * Real.sin (angle / 2), axis.y * Real.sin (angle / 2),
   axis.z * Real.sin (angle / 2), Real.cos (angle / 2)⟩

/-- THREE.Vector3.applyQuaternion: rotate the vector by the quaternion. -/
noncomputable def applyQuaternion (q : Quat) (v : Vec3) : Vec3 :=
  ⟨(q.w * v.x + q.y * v.z - q.z * v.y) * q.w
      + (-q.x * v.x - q.y * v.y - q.z * v.z) * (-q.x)
      + (q.w * v.y + q.z * v.x - q.x * v.z) * (-q.z)
      - (q.w * v.z + q.x * v.y - q.y * v.x) * (-q.y),
   (q.w * v.y + q.z * v.x - q.x * v.z) * q.w
      + (-q.x * v.x - q.y * v.y - q.z * v.z) * (-q.y)
      + (q.w * v.z + q.x * v.y - q.y * v.x) * (-q.x)
      - (q.w * v.x + q.y * v.z - q.z * v.y) * (-q.z),
   (q.w * v.z + q.x * v.y - q.y * v.x) * q.w
      + (-q.x * v.x - q.y * v.y - q.z * v.z) * (-q.z)
      + (q.w * v.x + q.y * v.z - q.z * v.y) * (-q.y)
      - (q.w * v.y + q.z * v.x - q.x * v.z) * (-q.x)⟩

/-- ObjectInfo over the reals: the object position and up, the look-at
target, the change-detection field last.pos, and the orbit damping state
last.angle and last.axis. -/
structure Info where
  position : Vec3
  up : Vec3
  target : Vec3
  lastPos : Vec3
  lastAngle : ℝ
  lastAxis : Vec3

/-- MouseControl._getEye: position minus target, recomputed on demand. -/
noncomputable def getEye (info : Info) : Vec3 := sub info.position info.target

/-- MouseControl._setEye with the inlined _checkChange: the position becomes
target plus eye (the lookAt reorientation only touches orientation state
outside this model), and a moveChange is dispatched exactly when last.pos
moved beyond EPS in squared distance, in which case last.pos is updated. -/
noncomputable def setEye (info : Info) (eye : Vec3) : Info × Bool :=
  let pos' := add info.target eye
  if EPS < distanceToSquared info.lastPos pos' then
    ({ info with position := pos', lastPos := pos' }, true)
  else
    ({ info with position := pos' }, false)

theorem setEye_position (info : Info) (eye : Vec3) :
    (setEye info eye).1.position = add info.target eye := by
  simp only [setEye]
  split
  · rfl
  · rfl

theorem setEye_target (info : Info) (eye : Vec3) :
    (setEye info eye).1.target = info.target := by
  simp only [setEye]
  split
  · rfl
  · rfl

theorem setEye_lastAngle (info : Info) (eye : Vec3) :
    (setEye info eye).1.lastAngle = info.lastAngle := by
  simp only [setEye]
  split
  · rfl
  · rfl

theorem getEye_setEye (info : Info) (eye : Vec3) :
    getEye (setEye info eye).1 = eye := by
  rw [getEye, setEye_position, setEye_target]
  cases eye
  simp [add, sub]

theorem normSq_nonneg (v : Vec3) : 0 ≤ normSq v := by
  have hx := mul_self_nonneg v.x
  have hy := mul_self_nonneg v.y
  have hz := mul_self_nonneg v.z
  unfold normSq
  linarith

theorem length_nonneg (v : Vec3) : 0 ≤ length v :=
  Real.sqrt_nonneg _

theorem normSq_eq_zero (v : Vec3) : normSq v = 0 ↔ v = ⟨0, 0, 0⟩ := by
  obtain ⟨x, y, z⟩ := v
  constructor
  · intro h
    have hx := mul_self_nonneg x
    have hy := mul_self_nonneg y
    have hz := mul_self_nonneg z
    unfold normSq at h
    simp only [Vec3.mk.injEq]
    refine ⟨?_, ?_, ?_⟩ <;> nlinarith
  · intro h
    injection h with h1 h2 h3
    subst h1
    subst h2
    subst h3
    simp [normSq]

theorem length_eq_zero (v : Vec3) : length v = 0 ↔ v = ⟨0, 0, 0⟩ := by
  rw [length, Real.sqrt_eq_zero (normSq_nonneg v)]
  exact normSq_eq_zero v

theorem length_pos (v : Vec3) (hv : v ≠ ⟨0, 0, 0⟩) : 0 < length v := by
  rcases lt_or_eq_of_le (length_nonneg v) with h | h
  · exact h
  · exact absurd ((length_eq_zero v).mp h.symm) hv

theorem normSq_smul (c : ℝ) (v : Vec3) :
    normSq (smul c v) = (c * c) * normSq v := by
  unfold normSq smul
  ring

theorem length_smul (c : ℝ) (v : Vec3) :
    length (smul c v) = |c| * length v := by
  rw [length, normSq_smul, Real.sqrt_mul (mul_self_nonneg c),
    Real.sqrt_mul_self_eq_abs]
  rfl

theorem smul_ne_zero_vec (c : ℝ) (v : Vec3) (hc : c ≠ 0)
    (hv : v ≠ ⟨0, 0, 0⟩) : smul c v ≠ ⟨0, 0, 0⟩ := by
  intro h
  apply hv
  have h0 : normSq (smul c v) = 0 := by
    rw [h]
    simp [normSq]
  rw [normSq_smul] at h0
  rcases mul_eq_zero.mp h0 with h1 | h1
  · exact absurd (by rcases mul_eq_zero.mp h1 with h2 | h2 <;> exact h2) hc
  · exact (normSq_eq_zero v).mp h1

theorem length_setLength (v : Vec3) (l : ℝ) (hv : v ≠ ⟨0, 0, 0⟩)
    (hl : 0 ≤ l) : length (setLength v l) = l := by
  have hpos := length_pos v hv
  rw [setLength, normalize, length_smul, length_smul,
    abs_of_nonneg hl, abs_of_nonneg (by positivity : (0:ℝ) ≤ 1 / length v)]
  field_simp

theorem normSq_eq_length_sq (v : Vec3) :
    normSq v = length v * length v := by
  rw [length, Real.mul_self_sqrt (normSq_nonneg v)]

theorem lt_length_iff (a : ℝ) (v : Vec3) (ha : 0 ≤ a) :
    a < length v ↔ a * a < normSq v := by
  rw [length, Real.lt_sqrt ha, sq]

theorem length_lt_iff (a : ℝ) (v : Vec3) (ha : 0 < a) :
    length v < a ↔ normSq v < a * a := by
  rw [length, Real.sqrt_lt' ha, sq]

theorem length_zero_vec : length ⟨0, 0, 0⟩ = 0 := by
  rw [length, show normSq ⟨0, 0, 0⟩ = 0 by norm_num [normSq], Real.sqrt_zero]

/-- RotationControl.rotate_ for one object. With a drag direction of nonzero
length, the rotation axis is derived from the normalized up and eye vectors
and stored together with the angle, the drag length times speed, as damping
state; with a zero-length direction, the JS truthiness gate turns the angle
into the stored angle when the damping factor is nonzero and into zero
otherwise, and when that gate angle is nonzero the stored angle decays by
the square root of one minus the damping factor. Whenever the gate angle is
nonzero, the stored axis and stored angle are applied as a quaternion to
the object up and the eye, and the position is recomputed through _setEye;
otherwise nothing happens. -/
noncomputable def rotate_ (dampingFactor speed : ℝ) (direction : Vec3)
    (info : Info) : Info × Bool :=
  let eye := getEye info
  if length direction ≠ 0 then
    let up := normalize info.up
    let sideways := setLength (normalize (cross up (normalize eye)))
      direction.x
    let axis := normalize (cross (add (setLength up direction.y) sideways)
      eye)
    let info1 := { info with lastAxis := axis,
                             lastAngle := length direction * speed }
    let q := setFromAxisAngle info1.lastAxis info1.lastAngle
    setEye { info1 with up := applyQuaternion q info1.up }
      (applyQuaternion q eye)
  else
    let gate := if dampingFactor = 0 then 0 else info.lastAngle
    if gate = 0 then (info, false)
    else
      let info1 := { info with
        lastAngle := info.lastAngle * Real.sqrt (1 - dampingFactor) }
      let q := setFromAxisAngle info1.lastAxis info1.lastAngle
      setEye { info1 with up := applyQuaternion q info1.up }
        (applyQuaternion q eye)

/-- Claim C3 (amended): an orbit step with a zero drag delta and damping
factor 0 performs no rotation and leaves the object unchanged; with damping
factor 0.2 and a nonzero stored prior angle, the new stored angle equals the
prior angle times the square root of 1 - 0.2, its absolute value is
strictly smaller than that of the prior angle, under exact arithmetic it is
never exactly zero, and whenever the prior angle is positive the new angle
is strictly smaller than the prior one. -/
theorem claim_C3 (speed : ℝ) (info : Info) :
    rotate_ 0 speed ⟨0, 0, 0⟩ info = (info, false) ∧
    (info.lastAngle ≠ 0 →
      (rotate_ (2/10) speed ⟨0, 0, 0⟩ info).1.lastAngle
          = info.lastAngle * Real.sqrt (1 - 2/10) ∧
      |(rotate_ (2/10) speed ⟨0, 0, 0⟩ info).1.lastAngle|
          < |info.lastAngle| ∧
      (rotate_ (2/10) speed ⟨0, 0, 0⟩ info).1.lastAngle ≠ 0 ∧
      (0 < info.lastAngle →
        (rotate_ (2/10) speed ⟨0, 0, 0⟩ info).1.lastAngle
            < info.lastAngle)) := by
  have hlen : ¬ (length (⟨0, 0, 0⟩ : Vec3) ≠ 0) := by
    simp [length_zero_vec]
  constructor
  · rw [rotate_, if_neg hlen]
    simp
  · intro ha
    have hval : (rotate_ (2/10) speed ⟨0, 0, 0⟩ info).1.lastAngle
        = info.lastAngle * Real.sqrt (1 - 2/10) := by
      rw [rotate_, if_neg hlen]
      rw [if_neg (by norm_num : ¬ ((2:ℝ)/10 = 0))]
      rw [if_neg ha]
      rw [setEye_lastAngle]
    have hs0 : (0:ℝ) < Real.sqrt (1 - 2/10) := by
      rw [Real.sqrt_pos]
      norm_num
    have hs1 : Real.sqrt (1 - 2/10) < 1 := by
      have := Real.sqrt_lt_sqrt (by norm_num : (0:ℝ) ≤ 1 - 2/10)
        (by norm_num : (1:ℝ) - 2/10 < 1)
      simpa [Real.sqrt_one] using this
    refine ⟨hval, ?_, ?_, ?_⟩
    · rw [hval, abs_mul, abs_of_pos hs0]
      have hpos : 0 < |info.lastAngle| := abs_pos.mpr ha
      nlinarith
    · rw [hval]
      exact mul_ne_zero ha (ne_of_gt hs0)
    · intro hp
      rw [hval]
      nlinarith

/-- Concrete orbit state for the C3 counterexample: a negative stored
angle, reachable because the stored angle is the drag length times the
user-configurable speed, which may be negative. -/
noncomputable def infoC3 : Info :=
  { position := ⟨0, 0, 5⟩, up := ⟨0, 1, 0⟩, target := ⟨0, 0, 0⟩,
    lastPos := ⟨0, 0, 5⟩, lastAngle := -1, lastAxis := ⟨0, 1, 0⟩ }

/-- Claim C3 (counterexample): with stored prior angle -1, which is nonzero,
and damping factor 0.2, the idle decay step yields a strictly larger stored
angle, not a strictly smaller one as the claim states. -/
theorem claim_C3_counterexample :
    infoC3.lastAngle ≠ 0 ∧
    infoC3.lastAngle < (rotate_ (2/10) 1 ⟨0, 0, 0⟩ infoC3).1.lastAngle := by
  have hlen : ¬ (length (⟨0, 0, 0⟩ : Vec3) ≠ 0) := by
    simp [length_zero_vec]
  have hval : (rotate_ (2/10) 1 ⟨0, 0, 0⟩ infoC3).1.lastAngle
      = infoC3.lastAngle * Real.sqrt (1 - 2/10) := by
    rw [rotate_, if_neg hlen]
    rw [if_neg (by norm_num : ¬ ((2:ℝ)/10 = 0))]
    rw [if_neg (by norm_num [infoC3] : ¬ (infoC3.lastAngle = 0))]
    rw [setEye_lastAngle]
  have hs0 : (0:ℝ) < Real.sqrt (1 - 2/10) := by
    rw [Real.sqrt_pos]
    norm_num
  have hs1 : Real.sqrt (1 - 2/10) < 1 := by
    have := Real.sqrt_lt_sqrt (by norm_num : (0:ℝ) ≤ 1 - 2/10)
      (by norm_num : (1:ℝ) - 2/10 < 1)
    simpa [Real.sqrt_one] using this
  constructor
  · norm_num [infoC3]
  · rw [hval]
    have : infoC3.lastAngle = -1 := rfl
    rw [this]
    nlinarith

/-- Concrete orbit state for the C3 witness: a positive stored angle. -/
noncomputable def infoC3w : Info :=
  { position := ⟨0, 0, 5⟩, up := ⟨0, 1, 0⟩, target := ⟨0, 0, 0⟩,
    lastPos := ⟨0, 0, 5⟩, lastAngle := 1, lastAxis := ⟨0, 1, 0⟩ }

/-- Witness for C3 at a concrete state with stored angle 1. -/
theorem claim_C3_witness :
    rotate_ 0 1 ⟨0, 0, 0⟩ infoC3w = (infoC3w, false) ∧
    (rotate_ (2/10) 1 ⟨0, 0, 0⟩ infoC3w).1.lastAngle
        = infoC3w.lastAngle * Real.sqrt (1 - 2/10) ∧
    |(rotate_ (2/10) 1 ⟨0, 0, 0⟩ infoC3w).1.lastAngle|
        < |infoC3w.lastAngle| ∧
    (rotate_ (2/10) 1 ⟨0, 0, 0⟩ infoC3w).1.lastAngle ≠ 0 ∧
    (rotate_ (2/10) 1 ⟨0, 0, 0⟩ infoC3w).1.lastAngle
        < infoC3w.lastAngle := by
  have H := claim_C3 1 infoC3w
  have ha : infoC3w.lastAngle ≠ 0 := by norm_num [infoC3w]
  have hp : (0:ℝ) < infoC3w.lastAngle := by norm_num [infoC3w]
  obtain ⟨H1, H2⟩ := H
  obtain ⟨Hv, Habs, Hne, Hlt⟩ := H2 ha
  exact ⟨H1, Hv, Habs, Hne, Hlt hp⟩

/-- PanControl.pan_ for one object: the drag change is scaled by the eye
length times speed; the target is translated by the cross of eye and up
set to the length of the x component, plus up set to the length of the y
component; then the position is recomputed from the unchanged eye. -/
noncomputable def pan_ (speed : ℝ) (change : Vec2) (info : Info) :
    Info × Bool :=
  let eye := getEye info
  let cx := change.x * (length eye * speed)
  let cy := change.y * (length eye * speed)
  let disp := add (setLength (cross eye info.up) cx) (setLength info.up cy)
  setEye { info with target := add info.target disp } eye

/-- Claim C7 (confirmed): a pan step whose drag delta has zero y component,
with up-vector (0,1,0) and eye (0,0,5), translates the target by an exact
scalar multiple of cross(eye, up), so the component of the target along up,
its y coordinate, is unchanged. -/
theorem claim_C7 (speed : ℝ) (change : Vec2) (info : Info)
    (hup : info.up = ⟨0, 1, 0⟩) (heye : getEye info = ⟨0, 0, 5⟩)
    (hy : change.y = 0) :
    (pan_ speed change info).1.target
        = add info.target
            (smul (change.x * speed) (cross (getEye info) info.up)) ∧
    (pan_ speed change info).1.target.y = info.target.y := by
  have h25 : Real.sqrt 25 = 5 := by
    rw [show (25:ℝ) = 5 ^ 2 by norm_num,
      Real.sqrt_sq (by norm_num : (0:ℝ) ≤ 5)]
  have hlen5 : length (⟨0, 0, 5⟩ : Vec3) = 5 := by
    rw [length, show normSq ⟨0, 0, 5⟩ = 25 by norm_num [normSq], h25]
  have hcross : cross (⟨0, 0, 5⟩ : Vec3) ⟨0, 1, 0⟩ = ⟨-5, 0, 0⟩ := by
    simp [cross]
  have hlenc : length (⟨-5, 0, 0⟩ : Vec3) = 5 := by
    rw [length, show normSq ⟨-5, 0, 0⟩ = 25 by norm_num [normSq], h25]
  have hsetc : ∀ l : ℝ, setLength ⟨-5, 0, 0⟩ l = ⟨-l, 0, 0⟩ := by
    intro l
    rw [setLength, normalize, hlenc]
    simp [smul]
  have hsetup : ∀ l : ℝ, l = 0 → setLength ⟨0, 1, 0⟩ l = ⟨0, 0, 0⟩ := by
    intro l hl
    subst hl
    simp [setLength, normalize, smul]
  simp only [pan_, setEye_target]
  rw [hup, heye, hy, hcross, hlen5, hsetc, hsetup _ (by ring)]
  constructor
  · simp only [add, smul, Vec3.mk.injEq]
    refine ⟨by ring, by ring, by ring⟩
  · simp [add]

/-- Concrete pan state for the C7 witness. -/
noncomputable def infoC7 : Info :=
  { position := ⟨0, 0, 5⟩, up := ⟨0, 1, 0⟩, target := ⟨0, 0, 0⟩,
    lastPos := ⟨0, 0, 5⟩, lastAngle := 0, lastAxis := ⟨0, 0, 0⟩ }

/-- Witness for C7 at a concrete horizontal drag of x component 1. -/
theorem claim_C7_witness :
    infoC7.up = ⟨0, 1, 0⟩ ∧ getEye infoC7 = ⟨0, 0, 5⟩ ∧
    (pan_ 1 ⟨1, 0⟩ infoC7).1.target
        = add infoC7.target
            (smul (1 * 1) (cross (getEye infoC7) infoC7.up)) ∧
    (pan_ 1 ⟨1, 0⟩ infoC7).1.target.y = infoC7.target.y := by
  have hup : infoC7.up = ⟨0, 1, 0⟩ := rfl
  have heye : getEye infoC7 = ⟨0, 0, 5⟩ := by
    simp [getEye, infoC7, sub]
  have H := claim_C7 1 ⟨1, 0⟩ infoC7 hup heye rfl
  exact ⟨hup, heye, H.1, H.2⟩

/-- Pointer state of the pipeline over the reals. -/
structure Mouse where
  curr : Vec2
  prev : Vec2

/-- ZoomControl zoom factor: in capture mode it is one plus the y drag
delta times speed, with a factor of exactly one or a nonpositive factor
mapped to zero (meaning no change); in pinch mode it is the previous pinch
distance divided by the current one. -/
noncomputable def zoomFactor (capture : Bool) (speed : ℝ) (m : Mouse)
    (tS tE : ℝ) : ℝ :=
  if capture then
    let d := 1 + (m.curr.y - m.prev.y) * speed
    if d = 1 ∨ d ≤ 0 then 0 else d
  else tS / tE

/-- Eye clamping of ZoomControl.zoom_: when the scaled length squared
exceeds maxDistance squared the eye is set to length maxDistance, and when
the remaining length squared is below minDistance squared it is set to
length minDistance. -/
noncomputable def clampEye (minD maxD : ℝ) (eye1 : Vec3) : Vec3 :=
  let eye2 := if maxD * maxD < normSq eye1 then setLength eye1 maxD else eye1
  if normSq eye2 < minD * minD then setLength eye2 minD else eye2

/-- Body of ZoomControl.zoom_ after the factor is known: with factor zero
nothing happens and 0 is returned; otherwise the eye is scaled by d,
clamped, and written back through _setEye, and the returned value is d, or
undefined (none) when either clamp fired. -/
noncomputable def zoomApply (d minD maxD : ℝ) (info : Info) :
    Option ℝ × Info × Bool :=
  if d = 0 then (some 0, info, false)
  else
    let eye1 := smul d (getEye info)
    let eye2 := if maxD * maxD < normSq eye1 then setLength eye1 maxD
                else eye1
    let se := setEye info (clampEye minD maxD eye1)
    (if (maxD * maxD < normSq eye1) ∨ (normSq eye2 < minD * minD) then none
     else some d, se.1, se.2)

/-- ZoomControl.zoom_ for one object: compute the factor, update the stored
pinch distance in pinch mode, and apply the zoom; returns the JS return
value, the new stored pinch distance, and the updated object record. -/
noncomputable def zoom_ (capture : Bool) (speed minD maxD : ℝ) (m : Mouse)
    (tS tE : ℝ) (info : Info) : Option ℝ × ℝ × Info :=
  let d := zoomFactor capture speed m tS tE
  let tS' := if capture then tS else tE
  ((zoomApply d minD maxD info).1, tS', (zoomApply d minD maxD info).2.1)

theorem clampEye_cases (minD maxD : ℝ) (e1 : Vec3) (he1 : e1 ≠ ⟨0, 0, 0⟩)
    (h0 : 0 ≤ minD) (hmax : minD ≤ maxD) :
    (maxD < length e1 → length (clampEye minD maxD e1) = maxD) ∧
    (length e1 < minD → length (clampEye minD maxD e1) = minD) ∧
    (minD ≤ length e1 → length e1 ≤ maxD → clampEye minD maxD e1 = e1) := by
  have hmax0 : 0 ≤ maxD := le_trans h0 hmax
  refine ⟨?_, ?_, ?_⟩
  · intro h
    have hcond : maxD * maxD < normSq e1 := (lt_length_iff maxD e1 hmax0).mp h
    have hlen2 : length (setLength e1 maxD) = maxD :=
      length_setLength e1 maxD he1 hmax0
    have hn2 : normSq (setLength e1 maxD) = maxD * maxD := by
      rw [normSq_eq_length_sq, hlen2]
    rw [clampEye]
    simp only [if_pos hcond, hn2]
    rw [if_neg (not_lt.mpr (mul_self_le_mul_self h0 hmax))]
    exact hlen2
  · intro h
    have hlt : length e1 < maxD := lt_of_lt_of_le h hmax
    have hc1 : ¬ (maxD * maxD < normSq e1) := by
      rw [normSq_eq_length_sq]
      exact not_lt.mpr
        (le_of_lt (mul_self_lt_mul_self (length_nonneg e1) hlt))
    have hc2 : normSq e1 < minD * minD := by
      rw [normSq_eq_length_sq]
      exact mul_self_lt_mul_self (length_nonneg e1) h
    rw [clampEye]
    simp only [if_neg hc1]
    rw [if_pos hc2]
    exact length_setLength e1 minD he1 h0
  · intro h1 h2
    have hc1 : ¬ (maxD * maxD < normSq e1) := by
      rw [normSq_eq_length_sq]
      exact not_lt.mpr (mul_self_le_mul_self (length_nonneg e1) h2)
    have hc2 : ¬ (normSq e1 < minD * minD) := by
      rw [normSq_eq_length_sq]
      exact not_lt.mpr (mul_self_le_mul_self h0 h1)
    rw [clampEye]
    simp only [if_neg hc1]
    rw [if_neg hc2]

/-- Claim C2 (confirmed): for a zoom step on an object with a nonzero
factor d, a nondegenerate eye and bounds satisfying 0 at most minDistance
at most maxDistance: when the scaled eye length would exceed maxDistance
the resulting eye length is exactly maxDistance; when it would fall below
minDistance the resulting eye length is exactly minDistance; otherwise the
new eye is exactly the old eye scaled by d; and in every case the position
is recomputed as target plus the clamped eye. -/
theorem claim_C2 (d minD maxD : ℝ) (info : Info)
    (hd : d ≠ 0) (he : getEye info ≠ ⟨0, 0, 0⟩)
    (h0 : 0 ≤ minD) (hmax : minD ≤ maxD) :
    (maxD < length (smul d (getEye info)) →
      length (getEye (zoomApply d minD maxD info).2.1) = maxD) ∧
    (length (smul d (getEye info)) < minD →
      length (getEye (zoomApply d minD maxD info).2.1) = minD) ∧
    (minD ≤ length (smul d (getEye info)) →
      length (smul d (getEye info)) ≤ maxD →
      getEye (zoomApply d minD maxD info).2.1 = smul d (getEye info)) ∧
    (zoomApply d minD maxD info).2.1.position
      = add info.target (clampEye minD maxD (smul d (getEye info))) := by
  have he1 : smul d (getEye info) ≠ ⟨0, 0, 0⟩ :=
    smul_ne_zero_vec d (getEye info) hd he
  have hred : (zoomApply d minD maxD info).2.1
      = (setEye info (clampEye minD maxD (smul d (getEye info)))).1 := by
    simp only [zoomApply, if_neg hd]
  have hcases := clampEye_cases minD maxD (smul d (getEye info)) he1 h0 hmax
  rw [hred, getEye_setEye, setEye_position]
  exact ⟨hcases.1, hcases.2.1, hcases.2.2, rfl⟩

/-- Concrete zoom state for the C2 witness: eye length 10. -/
noncomputable def infoC2 : Info :=
  { position := ⟨0, 0, 10⟩, up := ⟨0, 1, 0⟩, target := ⟨0, 0, 0⟩,
    lastPos := ⟨0, 0, 10⟩, lastAngle := 0, lastAxis := ⟨0, 0, 0⟩ }

/-- Witness for C2: factor 2 on eye length 10 with maxDistance 15 requests
length 20 and is clamped to exactly 15. -/
theorem claim_C2_witness :
    (2:ℝ) ≠ 0 ∧ getEye infoC2 ≠ ⟨0, 0, 0⟩ ∧
    length (getEye (zoomApply 2 0 15 infoC2).2.1) = 15 := by
  have heye : getEye infoC2 = ⟨0, 0, 10⟩ := by
    simp [getEye, infoC2, sub]
  have hne : getEye infoC2 ≠ ⟨0, 0, 0⟩ := by
    rw [heye]
    norm_num [Vec3.mk.injEq]
  have hsm : smul (2:ℝ) ⟨0, 0, 10⟩ = ⟨0, 0, 20⟩ := by
    norm_num [smul, Vec3.mk.injEq]
  have hlen20 : length (smul (2:ℝ) (getEye infoC2)) = 20 := by
    rw [heye, hsm, length, show normSq ⟨0, 0, 20⟩ = 400 by norm_num [normSq]]
    rw [show (400:ℝ) = 20 ^ 2 by norm_num,
      Real.sqrt_sq (by norm_num : (0:ℝ) ≤ 20)]
  have H := claim_C2 2 0 15 infoC2 (by norm_num) hne (le_refl 0)
    (by norm_num)
  refine ⟨by norm_num, hne, ?_⟩
  apply H.1
  rw [hlen20]
  norm_num

/-- ZoomControl.doZoom_, the loop part: zoom_ runs over every controlled
object, threading the stored pinch distance, and the damping factor is
zeroed as soon as any call returns undefined. Returns the updated records,
the final pinch distance and the final damping factor. -/
noncomputable def doZoomList (capture : Bool) (speed minD maxD tE : ℝ)
    (m : Mouse) : List Info → ℝ → ℝ → List Info × ℝ × ℝ
  | [], tS, f => ([], tS, f)
  | info :: rest, tS, f =>
      let z := zoom_ capture speed minD maxD m tS tE info
      let f' := if z.1 = none then 0 else f
      let r := doZoomList capture speed minD maxD tE m rest z.2.1 f'
      (z.2.2 :: r.1, r.2.1, r.2.2)

/-- The per-object zoom_ return values of a doZoom_ step, in order. -/
noncomputable def zoomResults (capture : Bool) (speed minD maxD tE : ℝ)
    (m : Mouse) : List Info → ℝ → List (Option ℝ)
  | [], _ => []
  | info :: rest, tS =>
      (zoom_ capture speed minD maxD m tS tE info).1
        :: zoomResults capture speed minD maxD tE m rest
            (zoom_ capture speed minD maxD m tS tE info).2.1

/-- ZoomControl.doZoom_: after the loop, a nonzero remaining damping factor
nudges prev.y toward curr.y by that factor, and a zero one snaps prev to
curr through _saveMove with no arguments. -/
noncomputable def doZoom_ (capture : Bool) (speed f minD maxD tE : ℝ)
    (m : Mouse) (infos : List Info) (tS : ℝ) : List Info × ℝ × Mouse :=
  let r := doZoomList capture speed minD maxD tE m infos tS f
  (r.1, r.2.1,
    if r.2.2 = 0 then { m with prev := m.curr }
    else { m with prev := ⟨m.prev.x,
      m.prev.y + r.2.2 * (m.curr.y - m.prev.y)⟩ })

theorem doZoomList_factor (capture : Bool) (speed minD maxD tE : ℝ)
    (m : Mouse) (infos : List Info) (tS f : ℝ) :
    (doZoomList capture speed minD maxD tE m infos tS f).2.2
      = if none ∈ zoomResults capture speed minD maxD tE m infos tS then 0
        else f := by
  induction infos generalizing tS f with
  | nil => simp [doZoomList, zoomResults]
  | cons info rest ih =>
      simp only [doZoomList, zoomResults, List.mem_cons]
      rw [ih]
      by_cases hz : (zoom_ capture speed minD maxD m tS tE info).1 = none
      · simp [hz, eq_comm]
      · simp [hz, eq_comm]

/-- Claim C5 (confirmed): in a zoom step over the controlled objects, if
any object saturated against a distance bound, so that its zoom_ call
returned undefined, the pointer prev is snapped to curr and no damping
carry-over is applied; otherwise, with a nonzero damping factor f, prev.y
is nudged by f times the difference between curr.y and prev.y while prev.x
and curr stay unchanged. -/
theorem claim_C5 (capture : Bool) (speed f minD maxD tE tS : ℝ)
    (m : Mouse) (infos : List Info) :
    (none ∈ zoomResults capture speed minD maxD tE m infos tS →
      (doZoom_ capture speed f minD maxD tE m infos tS).2.2.prev = m.curr ∧
      (doZoom_ capture speed f minD maxD tE m infos tS).2.2.curr
        = m.curr) ∧
    (none ∉ zoomResults capture speed minD maxD tE m infos tS → f ≠ 0 →
      (doZoom_ capture speed f minD maxD tE m infos tS).2.2.prev.x
          = m.prev.x ∧
      (doZoom_ capture speed f minD maxD tE m infos tS).2.2.prev.y
          = m.prev.y + f * (m.curr.y - m.prev.y) ∧
      (doZoom_ capture speed f minD maxD tE m infos tS).2.2.curr
        = m.curr) := by
  have hf := doZoomList_factor capture speed minD maxD tE m infos tS f
  constructor
  · intro hmem
    simp only [doZoom_, hf, if_pos hmem]
    simp
  · intro hmem hfne
    simp only [doZoom_, hf, if_neg hmem, if_neg hfne]
    simp

/-- Concrete zoom state for the C5 witness, the end-to-end scenario of the
specification: pinch distances 100 then 50 give factor 2 on eye length 10
with maxDistance 15, so the clamp saturates and damping is suppressed. -/
noncomputable def infoC5 : Info :=
  { position := ⟨0, 0, 10⟩, up := ⟨0, 1, 0⟩, target := ⟨0, 0, 0⟩,
    lastPos := ⟨0, 0, 10⟩, lastAngle := 0, lastAxis := ⟨0, 0, 0⟩ }

/-- Pointer state for the C5 witness. -/
noncomputable def mouseC5 : Mouse := ⟨⟨0, 0⟩, ⟨3, 4⟩⟩

/-- Witness for C5 at the pinch scenario of the specification. -/
theorem claim_C5_witness :
    none ∈ zoomResults false 1 0 15 50 mouseC5 [infoC5] 100 ∧
    (doZoom_ false 1 (2/10) 0 15 50 mouseC5 [infoC5] 100).2.2.prev
      = mouseC5.curr := by
  have heye : getEye infoC5 = ⟨0, 0, 10⟩ := by
    simp [getEye, infoC5, sub]
  have hd : zoomFactor false 1 mouseC5 100 50 = 100 / 50 := by
    simp [zoomFactor]
  have hsm : smul ((100:ℝ)/50) ⟨0, 0, 10⟩ = ⟨0, 0, 20⟩ := by
    norm_num [smul, Vec3.mk.injEq]
  have h1 : ¬ ((100:ℝ)/50 = 0) := by norm_num
  have h2 : (15:ℝ) * 15 < normSq (smul ((100:ℝ)/50) (getEye infoC5)) := by
    rw [heye, hsm]
    norm_num [normSq]
  have hres : (zoom_ false 1 0 15 mouseC5 100 50 infoC5).1 = none := by
    simp [zoom_, hd, zoomApply, h1, h2]
  have hmem : none ∈ zoomResults false 1 0 15 50 mouseC5 [infoC5] 100 := by
    simp [zoomResults, hres]
  have H := (claim_C5 false 1 (2/10) 0 15 50 100 mouseC5 [infoC5]).1 hmem
  exact ⟨hmem, H.1⟩

end MouseControlR
